import Mathlib

/-!
# Verification of the educational k-means widget (orange3-educational)

Shallow embedding of `orangecontrib/educational/widgets/owkmeans.py` and of the
stepwise k-means engine it drives.  The widget file is embedded from its source;
the `Kmeans` engine (`orangecontrib.educational.widgets.utils.kmeans`, not part
of the source tree available here) is modelled from the specification, as noted
on each of its definitions.

Coordinates are rationals: the Python code works with floating point numbers,
but every claim under study is about comparisons, counts and exact restoration
of values, for which exact rational arithmetic is the faithful order-preserving
model.  Euclidean distance comparisons are carried out on squared distances
(the spec itself notes squared distance suffices since only ordering matters);
the theorems about claim C1 state minimality for the true Euclidean distance
`Real.sqrt` as well.
-/

namespace OWKmeansSpec

/-- A 2-D data point or centroid position. -/
abbrev Point : Type := ℚ × ℚ

/-- Squared Euclidean distance between two points. -/
def sqDist (p q : Point) : ℚ := (p.1 - q.1) ^ 2 + (p.2 - q.2) ^ 2

theorem sqDist_nonneg (p q : Point) : 0 ≤ sqDist p q :=
  add_nonneg (sq_nonneg _) (sq_nonneg _)

/-- First-minimum search over `d :: ds`: returns the index (into `d :: ds`) and
value of the least element, taking the earliest index on ties.  This is the
behaviour of `np.argmin` used by the assignment phase. -/
def argmin2 (d : ℚ) : List ℚ → ℕ × ℚ
  | [] => (0, d)
  | e :: rest =>
    let r := argmin2 e rest
    if d ≤ r.2 then (0, d) else (r.1 + 1, r.2)

theorem argmin2_fst_lt (d : ℚ) (ds : List ℚ) : (argmin2 d ds).1 < ds.length + 1 := by
  induction ds generalizing d with
  | nil => simp [argmin2]
  | cons e rest ih =>
    simp only [argmin2]
    split
    · simp
    · have := ih e
      simpa [List.length_cons] using Nat.succ_lt_succ this

theorem argmin2_snd_eq_getD (d : ℚ) (ds : List ℚ) :
    (argmin2 d ds).2 = (d :: ds).getD (argmin2 d ds).1 0 := by
  induction ds generalizing d with
  | nil => simp [argmin2]
  | cons e rest ih =>
    simp only [argmin2]
    split
    · simp
    · simpa using ih e

theorem argmin2_min (d : ℚ) (ds : List ℚ) :
    ∀ j, j < ds.length + 1 → (argmin2 d ds).2 ≤ (d :: ds).getD j 0 := by
  induction ds generalizing d with
  | nil =>
    intro j hj
    have : j = 0 := Nat.lt_one_iff.mp (by simpa using hj)
    subst this
    simp [argmin2]
  | cons e rest ih =>
    intro j hj
    simp only [argmin2]
    by_cases h : d ≤ (argmin2 e rest).2
    · rw [if_pos h]
      match j with
      | 0 => simp
      | j + 1 =>
        have hj' : j < rest.length + 1 := by
          simpa [List.length_cons] using Nat.lt_of_succ_lt_succ hj
        have := ih e j hj'
        calc (d : ℚ) ≤ (argmin2 e rest).2 := h
          _ ≤ (e :: rest).getD j 0 := this
          _ = (d :: e :: rest).getD (j + 1) 0 := by simp
    · rw [if_neg h]
      match j with
      | 0 =>
        simpa using le_of_lt (lt_of_not_le h)
      | j + 1 =>
        have hj' : j < rest.length + 1 := by
          simpa [List.length_cons] using Nat.lt_of_succ_lt_succ hj
        simpa using ih e j hj'

theorem argmin2_tiebreak (d : ℚ) (ds : List ℚ) :
    ∀ j, j < (argmin2 d ds).1 → (argmin2 d ds).2 < (d :: ds).getD j 0 := by
  induction ds generalizing d with
  | nil => intro j hj; simp [argmin2] at hj
  | cons e rest ih =>
    intro j hj
    simp only [argmin2] at hj ⊢
    by_cases h : d ≤ (argmin2 e rest).2
    · rw [if_pos h] at hj
      simp at hj
    · rw [if_neg h] at hj ⊢
      match j with
      | 0 =>
        simpa using lt_of_not_le h
      | j + 1 =>
        have hj' : j < (argmin2 e rest).1 := Nat.lt_of_succ_lt_succ hj
        simpa using ih e j hj'

/-- Modelled from the spec: the assignment rule of the k-means engine
(`Kmeans` in `utils/kmeans.py`, not in the available source tree).  "For every
point, compute Euclidean distance to every centroid; assign the point to the
centroid with minimum distance (ties broken by lowest centroid index)."
Comparisons are on squared distances, which order points identically. -/
def assign (p : Point) (cs : List Point) : ℕ :=
  match cs with
  | [] => 0
  | c :: rest => (argmin2 (sqDist p c) (rest.map (fun q => sqDist p q))).1

/-- `getD` of a mapped list, below the length. -/
theorem getD_map_of_lt {α β : Type} (f : α → β) (l : List α) (j : ℕ) (hj : j < l.length)
    (d : β) (e : α) : (l.map f).getD j d = f (l.getD j e) := by
  induction l generalizing j with
  | nil => simp at hj
  | cons a rest ih =>
    match j with
    | 0 => simp
    | j + 1 =>
      have hj' : j < rest.length := Nat.lt_of_succ_lt_succ hj
      simpa using ih j hj'

theorem assign_lt_length (p : Point) (cs : List Point) (h : cs ≠ []) :
    assign p cs < cs.length := by
  match cs with
  | [] => exact absurd rfl h
  | c :: rest =>
    have := argmin2_fst_lt (sqDist p c) (rest.map (fun q => sqDist p q))
    simpa [assign] using this

theorem map_sqDist_cons (p : Point) (c : Point) (rest : List Point) :
    sqDist p c :: rest.map (fun q => sqDist p q) = (c :: rest).map (fun q => sqDist p q) := by
  simp

theorem assign_min (p : Point) (cs : List Point) (h : cs ≠ []) :
    ∀ j, j < cs.length →
      sqDist p (cs.getD (assign p cs) (0, 0)) ≤ sqDist p (cs.getD j (0, 0)) := by
  match cs with
  | [] => exact absurd rfl h
  | c :: rest =>
    intro j hj
    have hlen : j < (rest.map (fun q => sqDist p q)).length + 1 := by
      simpa using hj
    have hmin := argmin2_min (sqDist p c) (rest.map (fun q => sqDist p q)) j hlen
    have hval := argmin2_snd_eq_getD (sqDist p c) (rest.map (fun q => sqDist p q))
    rw [map_sqDist_cons] at hmin hval
    have ha : assign p (c :: rest) < (c :: rest).length :=
      assign_lt_length p (c :: rest) (List.cons_ne_nil _ _)
    have h1 : ((c :: rest).map (fun q => sqDist p q)).getD (assign p (c :: rest)) 0
        = sqDist p ((c :: rest).getD (assign p (c :: rest)) (0, 0)) :=
      getD_map_of_lt _ _ _ ha _ _
    have h2 : ((c :: rest).map (fun q => sqDist p q)).getD j 0
        = sqDist p ((c :: rest).getD j (0, 0)) :=
      getD_map_of_lt _ _ _ hj _ _
    calc sqDist p ((c :: rest).getD (assign p (c :: rest)) (0, 0))
        = ((c :: rest).map (fun q => sqDist p q)).getD (assign p (c :: rest)) 0 := h1.symm
      _ = (argmin2 (sqDist p c) (rest.map (fun q => sqDist p q))).2 := by
          rw [hval]; rfl
      _ ≤ ((c :: rest).map (fun q => sqDist p q)).getD j 0 := hmin
      _ = sqDist p ((c :: rest).getD j (0, 0)) := h2

theorem assign_tiebreak (p : Point) (cs : List Point) (h : cs ≠ []) :
    ∀ j, j < assign p cs →
      sqDist p (cs.getD (assign p cs) (0, 0)) < sqDist p (cs.getD j (0, 0)) := by
  match cs with
  | [] => exact absurd rfl h
  | c :: rest =>
    intro j hj
    have ha : assign p (c :: rest) < (c :: rest).length :=
      assign_lt_length p (c :: rest) (List.cons_ne_nil _ _)
    have hjlen : j < (c :: rest).length := lt_trans hj ha
    have htie := argmin2_tiebreak (sqDist p c) (rest.map (fun q => sqDist p q)) j hj
    have hval := argmin2_snd_eq_getD (sqDist p c) (rest.map (fun q => sqDist p q))
    rw [map_sqDist_cons] at htie hval
    have h1 : ((c :: rest).map (fun q => sqDist p q)).getD (assign p (c :: rest)) 0
        = sqDist p ((c :: rest).getD (assign p (c :: rest)) (0, 0)) :=
      getD_map_of_lt _ _ _ ha _ _
    have h2 : ((c :: rest).map (fun q => sqDist p q)).getD j 0
        = sqDist p ((c :: rest).getD j (0, 0)) :=
      getD_map_of_lt _ _ _ hjlen _ _
    calc sqDist p ((c :: rest).getD (assign p (c :: rest)) (0, 0))
        = ((c :: rest).map (fun q => sqDist p q)).getD (assign p (c :: rest)) 0 := h1.symm
      _ = (argmin2 (sqDist p c) (rest.map (fun q => sqDist p q))).2 := by
          rw [hval]; rfl
      _ < ((c :: rest).map (fun q => sqDist p q)).getD j 0 := htie
      _ = sqDist p ((c :: rest).getD j (0, 0)) := h2

/-- A history snapshot: per the spec, "an ordered sequence of complete
snapshots (centroids, assignments, phase) recorded before each mutating step,
enabling undo".  `converged` is not part of the snapshot; `step_back` clears
it. -/
structure Snapshot where
  centroids : List Point
  clusters : Option (List ℕ)
  stepCompleted : Bool
deriving DecidableEq

/-- Modelled from the spec: the state of the k-means engine (`Kmeans` in
`utils/kmeans.py`, not in the available source tree).  `stepCompleted` is the
`step_completed` flag: true means the phase is AWAITING_ASSIGNMENT (the last
step moved centroids and the next step will (re)assign).  `clusters` is
`none` before the first assignment phase ("assignments = unset"). -/
structure Kmeans where
  data : List Point
  centroids : List Point
  clusters : Option (List ℕ)
  stepCompleted : Bool
  converged : Bool
  history : List Snapshot
deriving DecidableEq

namespace Kmeans

/-- Number of centroids, `k_means.k` in the widget code. -/
def k (km : Kmeans) : ℕ := km.centroids.length

/-- Number of forward steps recorded, `k_means.stepNo` in the widget code:
the spec's `step_count()` equals the history length. -/
def stepNo (km : Kmeans) : ℕ := km.history.length

/-- The snapshot of the current state pushed onto history before a step. -/
def snap (km : Kmeans) : Snapshot :=
  ⟨km.centroids, km.clusters, km.stepCompleted⟩

/-- Modelled from the spec: construction `new(dataset, k = 1)` with the single
initial centroid drawn randomly from the data bounding box; the draw is a
parameter `c0` here.  Phase starts at AWAITING_ASSIGNMENT, history empty,
assignments unset, not converged. -/
def new (dt : List Point) (c0 : Point) : Kmeans :=
  ⟨dt, [c0], none, true, false, []⟩

/-- The points currently assigned to centroid `i`. -/
def membersOf (dt : List Point) (cl : List ℕ) (i : ℕ) : List Point :=
  (dt.zip cl).filterMap (fun pc => if pc.2 = i then some pc.1 else none)

/-- Arithmetic mean of a list of points; a centroid with zero assigned points
keeps its current position `dflt`. -/
def meanPt (ps : List Point) (dflt : Point) : Point :=
  if ps.isEmpty then dflt
  else ((ps.map Prod.fst).sum / (ps.length : ℚ), (ps.map Prod.snd).sum / (ps.length : ℚ))

/-- Modelled from the spec: the update phase moves every centroid to the mean
of its currently assigned points, keeping centroids with no members in
place. -/
def updateCentroids (dt : List Point) (cl : List ℕ) (cs : List Point) : List Point :=
  cs.enum.map (fun ic => meanPt (membersOf dt cl ic.1) ic.2)

/-- Modelled from the spec: `step()` advances one phase, pushing the pre-step
snapshot onto history first.  In the assignment phase every point is assigned
to its nearest centroid and `converged` is set exactly when the new assignment
equals the previous one; in the update phase centroids move to the member
means. -/
def step (km : Kmeans) : Kmeans :=
  if km.stepCompleted then
    let newCl := km.data.map (fun p => assign p km.centroids)
    { km with clusters := some newCl
            , converged := decide (km.clusters = some newCl)
            , stepCompleted := false
            , history := km.snap :: km.history }
  else
    { km with centroids := updateCentroids km.data (km.clusters.getD []) km.centroids
            , stepCompleted := true
            , history := km.snap :: km.history }

/-- Modelled from the spec: `step_back()` pops the most recent snapshot and
restores centroids, assignments and phase from it, clearing `converged`; with
empty history it is a no-op. -/
def stepBack (km : Kmeans) : Kmeans :=
  match km.history with
  | [] => km
  | s :: rest =>
    { km with centroids := s.centroids, clusters := s.clusters,
              stepCompleted := s.stepCompleted, converged := false, history := rest }

/-- Modelled from the spec: `add_centroid(position)` appends a centroid at the
given position (K increases by 1) and clears `converged`.  Per the spec's note
on the reference behaviour, the phase gate lives in the caller
(`graph_clicked`'s `step_completed` test), not here. -/
def add_centroids (km : Kmeans) (p : Point) : Kmeans :=
  { km with centroids := km.centroids ++ [p], converged := false }

/-- Modelled from the spec: `delete_centroid` removes the last centroid;
it "fails (no-op or error) if K would drop below 1". -/
def delete_centroids (km : Kmeans) : Kmeans :=
  if 1 < km.centroids.length then
    { km with centroids := km.centroids.dropLast, converged := false }
  else km

/-- Modelled from the spec: `move_centroid(index, new_position)` overwrites the
centroid's coordinates and clears `converged`; the phase gate lives in the
caller (the chart only renders centroids draggable when `step_completed`). -/
def move_centroid (km : Kmeans) (i : ℕ) (x y : ℚ) : Kmeans :=
  { km with centroids := km.centroids.set i (x, y), converged := false }

/-- `m` forward steps, first step innermost. -/
def stepN (km : Kmeans) : ℕ → Kmeans
  | 0 => km
  | n + 1 => (stepN km n).step

/-- `m` backward steps, first step-back applied first. -/
def stepBackN (km : Kmeans) : ℕ → Kmeans
  | 0 => km
  | n + 1 => stepBackN km.stepBack n

/-- `n` repeated centroid additions with positions drawn from `rnd`, as the
widget's `number_of_clusters_changed` loop performs. -/
def addN (km : Kmeans) (rnd : ℕ → Point) : ℕ → Kmeans
  | 0 => km
  | n + 1 => (addN km rnd n).add_centroids (rnd n)

/-- `n` repeated centroid deletions, as the widget's
`number_of_clusters_changed` loop performs. -/
def delN (km : Kmeans) : ℕ → Kmeans
  | 0 => km
  | n + 1 => (delN km n).delete_centroids

end Kmeans

/-- The `OWKmeans` widget state, embedded from
`orangecontrib/educational/widgets/owkmeans.py`.  Chart and button objects are
reduced to the booleans the claims are about: `draggable` is the
`draggableX`/`draggableY` flag of the centroid series set by `replot`,
`infoMessage` records whether `self.info` currently shows the
too-few-points message, and the `...Disabled` fields mirror `setDisabled`
calls on the corresponding controls. -/
structure Widget where
  kmeans : Option Kmeans
  numberOfClusters : ℕ
  dataLen : ℕ
  infoMessage : Bool
  commandsDisabled : Bool
  spinnerDisabled : Bool
  stepBackDisabled : Bool
  draggable : Bool
  autoPlay : Bool
deriving DecidableEq

namespace Widget

/-- `OWKmeans.replot`: of the chart options only the drag flags of the centroid
series matter here; they are set from `step_completed` (source lines 345-346).
With no model loaded the early return leaves everything unchanged. -/
def replotW (w : Widget) : Widget :=
  match w.kmeans with
  | none => w
  | some km => { w with draggable := km.stepCompleted }

/-- The centroid-count adjustment loop of `number_of_clusters_changed`: add
centroids while `k_means.k < numberOfClusters`, else delete the excess. -/
def adjustK (km : Kmeans) (n : ℕ) (rnd : ℕ → Point) : Kmeans :=
  if km.k < n then km.addN rnd (n - km.k) else km.delN (km.k - n)

/-- `OWKmeans.number_of_clusters_changed` (source lines 371-395).  When the
requested count exceeds the data size it only sets the informational message,
empties the plot and disables the commands box; otherwise it clears the
message, re-enables the commands box, adjusts the model's centroid count to
the spinner value, replots and sends data.  The `k_means is None` branch of
the source calls `restart()`; it is unreachable in the modelled lifecycle
(`restart` installs the model before invoking this handler and the spinner is
enabled only after a restart) and is modelled as leaving the model absent. -/
def number_of_clusters_changed (w : Widget) (rnd : ℕ → Point) : Widget :=
  if w.dataLen < w.numberOfClusters then
    { w with infoMessage := true, commandsDisabled := true }
  else
    match w.kmeans with
    | none => { w with infoMessage := false, commandsDisabled := false }
    | some km =>
        replotW { w with infoMessage := false, commandsDisabled := false,
                         kmeans := some (adjustK km w.numberOfClusters rnd) }

/-- `OWKmeans.restart` (source lines 240-253): install a fresh engine on the
current two-column projection (`pts`), run `number_of_clusters_changed`,
replot, re-enable the spinner and disable the step-back button.  `c0` and
`rnd` stand for the random draws of centroid positions. -/
def restartW (w : Widget) (pts : List Point) (c0 : Point) (rnd : ℕ → Point) : Widget :=
  let w1 := { w with kmeans := some (Kmeans.new pts c0), dataLen := pts.length }
  let w2 := number_of_clusters_changed w1 rnd
  let w3 := replotW w2
  { w3 with spinnerDisabled := false, stepBackDisabled := true }

/-- `OWKmeans.step` (source lines 255-265): advance the engine one phase,
replot, enable the spinner exactly when `step_completed`, and (outside
autoplay) enable the step-back button. -/
def stepW (w : Widget) : Widget :=
  match w.kmeans with
  | none => w
  | some km =>
    let km2 := km.step
    let w1 := replotW { w with kmeans := some km2 }
    let w2 := { w1 with spinnerDisabled := !km2.stepCompleted }
    if w2.autoPlay then w2 else { w2 with stepBackDisabled := false }

/-- `OWKmeans.step_back` (source lines 267-277): step the engine back, replot,
enable the spinner exactly when `step_completed`, and disable the step-back
button when `stepNo <= 0`. -/
def step_backW (w : Widget) : Widget :=
  match w.kmeans with
  | none => w
  | some km =>
    let km2 := km.stepBack
    let w1 := replotW { w with kmeans := some km2 }
    let w2 := { w1 with spinnerDisabled := !km2.stepCompleted }
    if km2.stepNo ≤ 0 then { w2 with stepBackDisabled := true } else w2

/-- `OWKmeans.graph_clicked` (source lines 397-409): only when a model exists
and `step_completed` holds, append a centroid at the clicked position,
increment the spinner value and replot. -/
def graph_clickedW (w : Widget) (x y : ℚ) : Widget :=
  match w.kmeans with
  | none => w
  | some km =>
    if km.stepCompleted then
      replotW { w with kmeans := some (km.add_centroids (x, y)),
                       numberOfClusters := w.numberOfClusters + 1 }
    else w

/-- `OWKmeans.centroid_dropped` (source lines 411-423): move the centroid and
replot.  The handler itself has no gate; drop events reach it only from
centroid markers the chart rendered draggable. -/
def centroid_droppedW (w : Widget) (i : ℕ) (x y : ℚ) : Widget :=
  match w.kmeans with
  | none => w
  | some km => replotW { w with kmeans := some (km.move_centroid i x y) }

/-- `OWKmeans.send_data` (source lines 425-446), reduced to the payload the
claims are about: `none` on both outputs when there is no model or no
assignment yet; otherwise the list of cluster-value names `"C1" .. "Ck"` of
the added class variable together with the assignment column, and the table of
centroid coordinates. -/
def send_dataW (okm : Option Kmeans) :
    Option (List String × List ℕ) × Option (List Point) :=
  match okm with
  | none => (none, none)
  | some km =>
    match km.clusters with
    | none => (none, none)
    | some cl =>
      (some ((List.range km.k).map (fun x => "C" ++ toString (x + 1)), cl),
       some km.centroids)

end Widget

/-- The initial widget state built by `OWKmeans.__init__`: no model, spinner
setting at its declared default 0, options (and hence the spinner) disabled
until data arrives, step-back disabled, nothing draggable, autoplay off. -/
def initW : Widget :=
  ⟨none, 0, 0, false, false, true, true, false, false⟩

/-- Transition labels of the user-reachable widget operations. -/
inductive WLabel where
  | restartL
  | spinnerL (n : ℕ)
  | clickL (x y : ℚ)
  | stepL
  | stepBackL
  | dropL (i : ℕ) (x y : ℚ)

/-- One user-triggered widget operation.  Spinner changes require the spinner
to be enabled and deliver a value in the control's range 1..10 (`minv=1,
maxv=10`); step and step-back require their buttons (in the commands box) to
be enabled; a centroid-drop event requires the chart to have rendered the
centroids draggable. -/
inductive WStep : Widget → WLabel → Widget → Prop where
  | restart (w : Widget) (pts : List Point) (c0 : Point) (rnd : ℕ → Point) :
      WStep w WLabel.restartL (w.restartW pts c0 rnd)
  | spinner (w : Widget) (n : ℕ) (rnd : ℕ → Point)
      (h1 : w.spinnerDisabled = false) (h2 : 1 ≤ n) (h3 : n ≤ 10) :
      WStep w (WLabel.spinnerL n)
        (Widget.number_of_clusters_changed { w with numberOfClusters := n } rnd)
  | click (w : Widget) (x y : ℚ) : WStep w (WLabel.clickL x y) (w.graph_clickedW x y)
  | stepF (w : Widget) (h : w.commandsDisabled = false) : WStep w WLabel.stepL w.stepW
  | stepB (w : Widget) (h1 : w.commandsDisabled = false)
      (h2 : w.stepBackDisabled = false) : WStep w WLabel.stepBackL w.step_backW
  | drop (w : Widget) (i : ℕ) (x y : ℚ) (h : w.draggable = true) :
      WStep w (WLabel.dropL i x y) (w.centroid_droppedW i x y)

/-- Widget states reachable from the freshly constructed widget through user
operations. -/
inductive Reachable : Widget → Prop where
  | init : Reachable initW
  | next {w w' : Widget} {l : WLabel} : Reachable w → WStep w l w' → Reachable w'

/-- Observable events emitted by the autoplay driver thread: the `step()`
signal, the fixed one-second `time.sleep(1)` delay, and the
`stop_auto_play()` signal. -/
inductive APEvent where
  | stepSignal
  | sleepSecond
  | stopSignal
deriving DecidableEq

/-- `Autoplay.run` (source lines 31-38): the driver loop re-reads
`k_means.converged` and `owkmeans.autoPlay` before every iteration; while
neither stops it, it emits `step()` and sleeps one second; when the condition
fails it emits `stop_auto_play()` and returns.  The successive values the two
shared booleans have at each check form the observation list `obs`
(`converged` first, `autoPlay` second). -/
def autoplayRun : List (Bool × Bool) → List APEvent
  | [] => [APEvent.stopSignal]
  | (converged, autoPlay) :: rest =>
    if !converged && autoPlay then
      APEvent.stepSignal :: APEvent.sleepSecond :: autoplayRun rest
    else [APEvent.stopSignal]

theorem autoplayRun_eq (obs : List (Bool × Bool)) :
    autoplayRun obs =
      (List.replicate (obs.takeWhile (fun s => !s.1 && s.2)).length
        [APEvent.stepSignal, APEvent.sleepSecond]).flatten ++ [APEvent.stopSignal] := by
  induction obs with
  | nil => simp [autoplayRun]
  | cons s rest ih =>
    obtain ⟨cv, ap⟩ := s
    by_cases h : !cv && ap
    · simp only [autoplayRun, h, if_true, List.takeWhile]
      rw [ih]
      simp [List.replicate_succ]
    · simp only [autoplayRun, h, if_false, List.takeWhile]
      rw [Bool.not_eq_true] at h
      simp [h]

theorem count_stop_flatten_replicate (n : ℕ) :
    ((List.replicate n [APEvent.stepSignal, APEvent.sleepSecond]).flatten).count
      APEvent.stopSignal = 0 := by
  induction n with
  | zero => simp
  | succ m ih => simp [List.replicate_succ, ih]

/-- C6.  The autoplay driver loop is cooperative and terminates: `Autoplay.run`
emits one `step()` signal followed by the one-second delay for exactly each
leading observation in which `converged` is still false and the `autoPlay`
flag still true — i.e. it re-checks both conditions between iterations and
steps only while both permit — and after the loop exits (by convergence, by
the flag being cleared, or at the end of the observations) it emits
`stop_auto_play()` exactly once, as the final event. -/
theorem autoplay_cooperative (obs : List (Bool × Bool)) :
    autoplayRun obs =
      (List.replicate (obs.takeWhile (fun s => !s.1 && s.2)).length
        [APEvent.stepSignal, APEvent.sleepSecond]).flatten ++ [APEvent.stopSignal] ∧
    (autoplayRun obs).count APEvent.stopSignal = 1 ∧
    (autoplayRun obs).getLast? = some APEvent.stopSignal := by
  refine ⟨autoplayRun_eq obs, ?_, ?_⟩
  · rw [autoplayRun_eq obs, List.count_append, count_stop_flatten_replicate]
    simp
  · rw [autoplayRun_eq obs]
    exact List.getLast?_concat _

theorem sqrt_sqDist_le {a b : ℚ} (h : a ≤ b) :
    Real.sqrt (a : ℝ) ≤ Real.sqrt (b : ℝ) :=
  Real.sqrt_le_sqrt (by exact_mod_cast h)

theorem sqrt_sqDist_lt {a b : ℚ} (ha : 0 ≤ a) (h : a < b) :
    Real.sqrt (a : ℝ) < Real.sqrt (b : ℝ) :=
  Real.sqrt_lt_sqrt (by exact_mod_cast ha) (by exact_mod_cast h)

/-- C1.  After every assignment phase of `step()`, every point's recorded
centroid is at minimal Euclidean distance among all current centroids: the
assigned index is in range, no centroid is strictly closer than the assigned
one, and every centroid of strictly lower index is strictly farther (so exact
ties go to the lowest centroid index). -/
theorem step_assignment_minimal (km : Kmeans) (h1 : km.stepCompleted = true)
    (h2 : km.centroids ≠ []) :
    ∃ l, (km.step).clusters = some l ∧ l.length = km.data.length ∧
      ∀ i, i < km.data.length →
        l.getD i 0 < km.centroids.length ∧
        (∀ j, j < km.centroids.length →
          Real.sqrt ((sqDist (km.data.getD i (0, 0))
              (km.centroids.getD (l.getD i 0) (0, 0)) : ℚ) : ℝ) ≤
          Real.sqrt ((sqDist (km.data.getD i (0, 0))
              (km.centroids.getD j (0, 0)) : ℚ) : ℝ)) ∧
        (∀ j, j < l.getD i 0 →
          Real.sqrt ((sqDist (km.data.getD i (0, 0))
              (km.centroids.getD (l.getD i 0) (0, 0)) : ℚ) : ℝ) <
          Real.sqrt ((sqDist (km.data.getD i (0, 0))
              (km.centroids.getD j (0, 0)) : ℚ) : ℝ)) := by
  refine ⟨km.data.map (fun p => assign p km.centroids), ?_, by simp, ?_⟩
  · simp [Kmeans.step, h1]
  · intro i hi
    have hgd : (km.data.map (fun p => assign p km.centroids)).getD i 0
        = assign (km.data.getD i (0, 0)) km.centroids :=
      getD_map_of_lt _ _ _ hi _ _
    rw [hgd]
    set p := km.data.getD i (0, 0) with hp
    refine ⟨assign_lt_length p km.centroids h2, ?_, ?_⟩
    · intro j hj
      exact sqrt_sqDist_le (assign_min p km.centroids h2 j hj)
    · intro j hj
      exact sqrt_sqDist_lt (sqDist_nonneg _ _) (assign_tiebreak p km.centroids h2 j hj)

/-- Witness for C1 on a concrete engine state: two data points and one
centroid, fresh from construction. -/
theorem step_assignment_minimal_witness :
    (Kmeans.new [((0 : ℚ), (0 : ℚ)), ((1 : ℚ), (0 : ℚ))] ((0 : ℚ), (0 : ℚ))).stepCompleted
        = true ∧
    (Kmeans.new [((0 : ℚ), (0 : ℚ)), ((1 : ℚ), (0 : ℚ))] ((0 : ℚ), (0 : ℚ))).centroids ≠ [] ∧
    (∃ l, ((Kmeans.new [((0 : ℚ), (0 : ℚ)), ((1 : ℚ), (0 : ℚ))]
          ((0 : ℚ), (0 : ℚ))).step).clusters = some l ∧
      l.length = (Kmeans.new [((0 : ℚ), (0 : ℚ)), ((1 : ℚ), (0 : ℚ))]
          ((0 : ℚ), (0 : ℚ))).data.length ∧
      ∀ i, i < (Kmeans.new [((0 : ℚ), (0 : ℚ)), ((1 : ℚ), (0 : ℚ))]
          ((0 : ℚ), (0 : ℚ))).data.length →
        l.getD i 0 < (Kmeans.new [((0 : ℚ), (0 : ℚ)), ((1 : ℚ), (0 : ℚ))]
            ((0 : ℚ), (0 : ℚ))).centroids.length ∧
        (∀ j, j < (Kmeans.new [((0 : ℚ), (0 : ℚ)), ((1 : ℚ), (0 : ℚ))]
            ((0 : ℚ), (0 : ℚ))).centroids.length →
          Real.sqrt ((sqDist ((Kmeans.new [((0 : ℚ), (0 : ℚ)), ((1 : ℚ), (0 : ℚ))]
                ((0 : ℚ), (0 : ℚ))).data.getD i (0, 0))
              ((Kmeans.new [((0 : ℚ), (0 : ℚ)), ((1 : ℚ), (0 : ℚ))]
                ((0 : ℚ), (0 : ℚ))).centroids.getD (l.getD i 0) (0, 0)) : ℚ) : ℝ) ≤
          Real.sqrt ((sqDist ((Kmeans.new [((0 : ℚ), (0 : ℚ)), ((1 : ℚ), (0 : ℚ))]
                ((0 : ℚ), (0 : ℚ))).data.getD i (0, 0))
              ((Kmeans.new [((0 : ℚ), (0 : ℚ)), ((1 : ℚ), (0 : ℚ))]
                ((0 : ℚ), (0 : ℚ))).centroids.getD j (0, 0)) : ℚ) : ℝ)) ∧
        (∀ j, j < l.getD i 0 →
          Real.sqrt ((sqDist ((Kmeans.new [((0 : ℚ), (0 : ℚ)), ((1 : ℚ), (0 : ℚ))]
                ((0 : ℚ), (0 : ℚ))).data.getD i (0, 0))
              ((Kmeans.new [((0 : ℚ), (0 : ℚ)), ((1 : ℚ), (0 : ℚ))]
                ((0 : ℚ), (0 : ℚ))).centroids.getD (l.getD i 0) (0, 0)) : ℚ) : ℝ) <
          Real.sqrt ((sqDist ((Kmeans.new [((0 : ℚ), (0 : ℚ)), ((1 : ℚ), (0 : ℚ))]
                ((0 : ℚ), (0 : ℚ))).data.getD i (0, 0))
              ((Kmeans.new [((0 : ℚ), (0 : ℚ)), ((1 : ℚ), (0 : ℚ))]
                ((0 : ℚ), (0 : ℚ))).centroids.getD j (0, 0)) : ℚ) : ℝ))) :=
  ⟨rfl, by simp [Kmeans.new],
   step_assignment_minimal _ rfl (by simp [Kmeans.new])⟩

theorem stepBack_step (km : Kmeans) :
    km.step.stepBack = { km with converged := false } := by
  obtain ⟨dt, cs, cl, sc, cv, h⟩ := km
  cases sc <;> simp [Kmeans.step, Kmeans.stepBack, Kmeans.snap]

theorem stepBack_converged_irrelevant (km : Kmeans) (c : Bool) (h : km.history ≠ []) :
    Kmeans.stepBack { km with converged := c } = km.stepBack := by
  obtain ⟨dt, cs, cl, sc, cv, hist⟩ := km
  match hist with
  | [] => exact absurd rfl h
  | s :: rest => simp [Kmeans.stepBack]

theorem stepN_history_length (km : Kmeans) (n : ℕ) :
    (km.stepN n).history.length = n + km.history.length := by
  induction n with
  | zero => simp [Kmeans.stepN]
  | succ m ih =>
    have : (km.stepN (m + 1)) = (km.stepN m).step := rfl
    rw [this]
    by_cases h : (km.stepN m).stepCompleted
    · simp [Kmeans.step, h, ih]; omega
    · simp [Kmeans.step, h, ih]; omega

theorem stepBackN_stepN (n : ℕ) (km : Kmeans) (hc : km.converged = false) :
    (km.stepN n).stepBackN n = km := by
  induction n with
  | zero =>
    rfl
  | succ m ih =>
    have h1 : (km.stepN (m + 1)).stepBackN (m + 1)
        = (((km.stepN m).step).stepBack).stepBackN m := rfl
    rw [h1, stepBack_step]
    match m, ih with
    | 0, _ =>
      obtain ⟨dt, cs, cl, sc, cv, hist⟩ := km
      simp only [Kmeans.stepN, Kmeans.stepBackN]
      simp at hc
      rw [hc]
    | j + 1, ih =>
      have h2 : (Kmeans.stepBackN
            { km.stepN (j + 1) with converged := false } (j + 1))
          = (Kmeans.stepBack { km.stepN (j + 1) with converged := false }).stepBackN j := rfl
      rw [h2, stepBack_converged_irrelevant]
      · exact ih
      · have := stepN_history_length km (j + 1)
        intro hnil
        rw [hnil] at this
        simp at this
        omega

/-- C2.  For every `n`, performing `n` `step()` calls from a freshly restarted
engine and then `n` `step_back()` calls restores exactly the initial
centroids, assignments, phase (and history) — the whole engine state is equal;
and every `step_back` on a non-empty history pops exactly its first entry and
restores that snapshot's centroids, assignments and phase exactly. -/
theorem step_roundtrip_restores (n : ℕ) (dt : List Point) (c0 : Point) :
    ((Kmeans.new dt c0).stepN n).stepBackN n = Kmeans.new dt c0 ∧
    (∀ (km : Kmeans) (s : Snapshot) (rest : List Snapshot), km.history = s :: rest →
      km.stepBack = { km with centroids := s.centroids, clusters := s.clusters,
                              stepCompleted := s.stepCompleted, converged := false,
                              history := rest }) := by
  refine ⟨stepBackN_stepN n (Kmeans.new dt c0) rfl, ?_⟩
  intro km s rest h
  obtain ⟨d, cs, cl, sc, cv, hist⟩ := km
  simp only at h
  subst h
  simp [Kmeans.stepBack]

/-- Witness for C2: two forward steps and two backward steps on a concrete
two-point dataset return the exact fresh state, and a step-back on a concrete
state with one recorded snapshot restores precisely that snapshot. -/
theorem step_roundtrip_restores_witness :
    ((Kmeans.new [((0 : ℚ), (0 : ℚ)), ((1 : ℚ), (0 : ℚ))]
        ((0 : ℚ), (0 : ℚ))).stepN 2).stepBackN 2
      = Kmeans.new [((0 : ℚ), (0 : ℚ)), ((1 : ℚ), (0 : ℚ))] ((0 : ℚ), (0 : ℚ)) ∧
    (Kmeans.stepBack
        ⟨[((0 : ℚ), (0 : ℚ))], [((1 : ℚ), (1 : ℚ))], none, false, true,
         [⟨[((2 : ℚ), (2 : ℚ))], some [0], true⟩]⟩
      = ⟨[((0 : ℚ), (0 : ℚ))], [((2 : ℚ), (2 : ℚ))], some [0], true, false, []⟩) :=
  ⟨(step_roundtrip_restores 2 [((0 : ℚ), (0 : ℚ)), ((1 : ℚ), (0 : ℚ))]
      ((0 : ℚ), (0 : ℚ))).1,
   (step_roundtrip_restores 2 [((0 : ℚ), (0 : ℚ)), ((1 : ℚ), (0 : ℚ))]
      ((0 : ℚ), (0 : ℚ))).2
     ⟨[((0 : ℚ), (0 : ℚ))], [((1 : ℚ), (1 : ℚ))], none, false, true,
      [⟨[((2 : ℚ), (2 : ℚ))], some [0], true⟩]⟩
     ⟨[((2 : ℚ), (2 : ℚ))], some [0], true⟩ [] rfl⟩

@[simp] theorem replotW_kmeans (w : Widget) : (w.replotW).kmeans = w.kmeans := by
  cases h : w.kmeans <;> simp [Widget.replotW, h]

@[simp] theorem replotW_numberOfClusters (w : Widget) :
    (w.replotW).numberOfClusters = w.numberOfClusters := by
  cases h : w.kmeans <;> simp [Widget.replotW, h]

@[simp] theorem replotW_infoMessage (w : Widget) :
    (w.replotW).infoMessage = w.infoMessage := by
  cases h : w.kmeans <;> simp [Widget.replotW, h]

@[simp] theorem replotW_commandsDisabled (w : Widget) :
    (w.replotW).commandsDisabled = w.commandsDisabled := by
  cases h : w.kmeans <;> simp [Widget.replotW, h]

@[simp] theorem replotW_stepBackDisabled (w : Widget) :
    (w.replotW).stepBackDisabled = w.stepBackDisabled := by
  cases h : w.kmeans <;> simp [Widget.replotW, h]

/-- C4.  `graph_clicked(x, y)` adds a centroid only in the post-update phase:
with no model or with `step_completed` false the widget state (in particular
`numberOfClusters` and the model) is fully unchanged; with `step_completed`
true exactly one centroid at `(x, y)` is appended and `numberOfClusters`
increases by exactly 1. -/
theorem graph_clicked_gated (w : Widget) (x y : ℚ) :
    (w.kmeans = none → w.graph_clickedW x y = w) ∧
    (∀ km, w.kmeans = some km → km.stepCompleted = false → w.graph_clickedW x y = w) ∧
    (∀ km, w.kmeans = some km → km.stepCompleted = true →
      ∃ km', (w.graph_clickedW x y).kmeans = some km' ∧
        km'.centroids = km.centroids ++ [(x, y)] ∧
        km'.k = km.k + 1 ∧
        (w.graph_clickedW x y).numberOfClusters = w.numberOfClusters + 1) := by
  refine ⟨?_, ?_, ?_⟩
  · intro h; simp [Widget.graph_clickedW, h]
  · intro km h hs; simp [Widget.graph_clickedW, h, hs]
  · intro km h hs
    refine ⟨km.add_centroids (x, y), ?_, rfl, ?_, ?_⟩
    · simp [Widget.graph_clickedW, h, hs]
    · simp [Kmeans.add_centroids, Kmeans.k]
    · simp [Widget.graph_clickedW, h, hs]

/-- Witness for C4 at a concrete state with a model in the post-update
phase: the click appends the clicked centroid and bumps the spinner value. -/
theorem graph_clicked_gated_witness :
    ∃ km', ((Widget.mk (some (Kmeans.new [((0 : ℚ), (0 : ℚ))] ((0 : ℚ), (0 : ℚ)))) 1 1
        false false false true true false).graph_clickedW 2 3).kmeans = some km' ∧
      km'.centroids = (Kmeans.new [((0 : ℚ), (0 : ℚ))] ((0 : ℚ), (0 : ℚ))).centroids
          ++ [((2 : ℚ), (3 : ℚ))] ∧
      km'.k = (Kmeans.new [((0 : ℚ), (0 : ℚ))] ((0 : ℚ), (0 : ℚ))).k + 1 ∧
      ((Widget.mk (some (Kmeans.new [((0 : ℚ), (0 : ℚ))] ((0 : ℚ), (0 : ℚ)))) 1 1
        false false false true true false).graph_clickedW 2 3).numberOfClusters = 1 + 1 :=
  (graph_clicked_gated
      (Widget.mk (some (Kmeans.new [((0 : ℚ), (0 : ℚ))] ((0 : ℚ), (0 : ℚ)))) 1 1
        false false false true true false) 2 3).2.2
    (Kmeans.new [((0 : ℚ), (0 : ℚ))] ((0 : ℚ), (0 : ℚ))) rfl rfl

/-- C5.  When the requested number of centroids exceeds the number of data
points, `number_of_clusters_changed` only surfaces the informational message
and disables the commands box: the model reference, its centroid count and
everything else in the widget state are left unchanged (no `add_centroids` or
`delete_centroids` runs). -/
theorem resize_rejected (w : Widget) (rnd : ℕ → Point)
    (h : w.dataLen < w.numberOfClusters) :
    Widget.number_of_clusters_changed w rnd
        = { w with infoMessage := true, commandsDisabled := true } ∧
    (Widget.number_of_clusters_changed w rnd).kmeans = w.kmeans ∧
    (∀ km, w.kmeans = some km →
      ∃ km', (Widget.number_of_clusters_changed w rnd).kmeans = some km' ∧
        km'.k = km.k) := by
  refine ⟨?_, ?_, ?_⟩
  · simp [Widget.number_of_clusters_changed, h]
  · simp [Widget.number_of_clusters_changed, h]
  · intro km hk
    exact ⟨km, by simp [Widget.number_of_clusters_changed, h, hk], rfl⟩

/-- Witness for C5: one data point, spinner value two. -/
theorem resize_rejected_witness :
    Widget.number_of_clusters_changed
        (Widget.mk (some (Kmeans.new [((0 : ℚ), (0 : ℚ))] ((0 : ℚ), (0 : ℚ)))) 2 1
          false false false true false false) (fun _ => ((0 : ℚ), (0 : ℚ)))
      = Widget.mk (some (Kmeans.new [((0 : ℚ), (0 : ℚ))] ((0 : ℚ), (0 : ℚ)))) 2 1
          true true false true false false :=
  (resize_rejected
      (Widget.mk (some (Kmeans.new [((0 : ℚ), (0 : ℚ))] ((0 : ℚ), (0 : ℚ)))) 2 1
        false false false true false false) (fun _ => ((0 : ℚ), (0 : ℚ)))
      (by decide)).1

/-- C8.  Step-back is unavailable exactly when no history exists: every
restart disables the step-back button; every `step_back` call that leaves
`stepNo` at or below 0 disables it; and a `step_back` on an engine with empty
history is a complete no-op. -/
theorem stepback_disabled_when_no_history (w : Widget) (pts : List Point)
    (c0 : Point) (rnd : ℕ → Point) :
    (w.restartW pts c0 rnd).stepBackDisabled = true ∧
    (∀ km, w.kmeans = some km → km.stepBack.stepNo ≤ 0 →
      (w.step_backW).stepBackDisabled = true) ∧
    (∀ km : Kmeans, km.history = [] → km.stepBack = km) := by
  refine ⟨?_, ?_, ?_⟩
  · simp [Widget.restartW]
  · intro km hk hn
    simp [Widget.step_backW, hk, hn]
  · intro km hh
    obtain ⟨d, cs, cl, sc, cv, hist⟩ := km
    simp only at hh
    subst hh
    rfl

/-- Witness for C8 on concrete states: a restart from the initial widget
state disables step-back; a step-back from a state whose engine has empty
history reports `stepNo = 0` and disables the button; the engine no-op is
checked on a concrete engine. -/
theorem stepback_disabled_when_no_history_witness :
    (initW.restartW [((0 : ℚ), (0 : ℚ))] ((0 : ℚ), (0 : ℚ))
        (fun _ => ((0 : ℚ), (0 : ℚ)))).stepBackDisabled = true ∧
    ((Widget.mk (some (Kmeans.new [((0 : ℚ), (0 : ℚ))] ((0 : ℚ), (0 : ℚ)))) 1 1
        false false false false true false).step_backW).stepBackDisabled = true ∧
    Kmeans.stepBack (Kmeans.new [((0 : ℚ), (0 : ℚ))] ((0 : ℚ), (0 : ℚ)))
      = Kmeans.new [((0 : ℚ), (0 : ℚ))] ((0 : ℚ), (0 : ℚ)) :=
  ⟨(stepback_disabled_when_no_history initW [((0 : ℚ), (0 : ℚ))] ((0 : ℚ), (0 : ℚ))
      (fun _ => ((0 : ℚ), (0 : ℚ)))).1,
   (stepback_disabled_when_no_history
      (Widget.mk (some (Kmeans.new [((0 : ℚ), (0 : ℚ))] ((0 : ℚ), (0 : ℚ)))) 1 1
        false false false false true false) [] ((0 : ℚ), (0 : ℚ))
      (fun _ => ((0 : ℚ), (0 : ℚ)))).2.1
     (Kmeans.new [((0 : ℚ), (0 : ℚ))] ((0 : ℚ), (0 : ℚ))) rfl (by decide),
   (stepback_disabled_when_no_history initW [] ((0 : ℚ), (0 : ℚ))
      (fun _ => ((0 : ℚ), (0 : ℚ)))).2.2
     (Kmeans.new [((0 : ℚ), (0 : ℚ))] ((0 : ℚ), (0 : ℚ))) rfl⟩

/-- C10.  `send_data` emits `none` on both outputs exactly when there is no
model or no assignment yet; otherwise it emits the assignment column together
with a cluster class variable having exactly `k_means.k` values named
`C1 .. Ck`, and the table of current centroid coordinates. -/
theorem send_data_characterized (okm : Option Kmeans) :
    (((Widget.send_dataW okm).1 = none ∧ (Widget.send_dataW okm).2 = none) ↔
      (okm = none ∨ ∃ km, okm = some km ∧ km.clusters = none)) ∧
    (∀ km cl, okm = some km → km.clusters = some cl →
      (Widget.send_dataW okm).1
          = some ((List.range km.k).map (fun x => "C" ++ toString (x + 1)), cl) ∧
      ((List.range km.k).map (fun x => "C" ++ toString (x + 1))).length = km.k ∧
      (∀ i, i < km.k →
        ((List.range km.k).map (fun x => "C" ++ toString (x + 1))).getD i ""
          = "C" ++ toString (i + 1)) ∧
      (Widget.send_dataW okm).2 = some km.centroids) := by
  constructor
  · match okm with
    | none => simp [Widget.send_dataW]
    | some km =>
      match h : km.clusters with
      | none => simp [Widget.send_dataW, h]
      | some cl => simp [Widget.send_dataW, h]
  · intro km cl hk hc
    subst hk
    refine ⟨by simp [Widget.send_dataW, hc], by simp, ?_, by simp [Widget.send_dataW, hc]⟩
    intro i hi
    have : ((List.range km.k).map (fun x => "C" ++ toString (x + 1))).getD i ""
        = "C" ++ toString ((List.range km.k).getD i 0 + 1) := by
      refine getD_map_of_lt _ _ _ ?_ _ _
      simpa using hi
    have hr : (List.range km.k).getD i 0 = i := by
      simp [List.getD_eq_getElem?_getD, List.getElem?_range hi]
    rw [this, hr]

/-- Witness for C10 on a concrete engine with a computed assignment: both
outputs are populated, with value names `C1` for the single centroid. -/
theorem send_data_characterized_witness :
    (Widget.send_dataW (some ((Kmeans.new [((0 : ℚ), (0 : ℚ))] ((0 : ℚ), (0 : ℚ))).step))).1
        = some ((List.range ((Kmeans.new [((0 : ℚ), (0 : ℚ))]
            ((0 : ℚ), (0 : ℚ))).step).k).map (fun x => "C" ++ toString (x + 1)), [0]) ∧
    ((List.range ((Kmeans.new [((0 : ℚ), (0 : ℚ))]
        ((0 : ℚ), (0 : ℚ))).step).k).map (fun x => "C" ++ toString (x + 1))).length
        = ((Kmeans.new [((0 : ℚ), (0 : ℚ))] ((0 : ℚ), (0 : ℚ))).step).k ∧
    (∀ i, i < ((Kmeans.new [((0 : ℚ), (0 : ℚ))] ((0 : ℚ), (0 : ℚ))).step).k →
      ((List.range ((Kmeans.new [((0 : ℚ), (0 : ℚ))]
          ((0 : ℚ), (0 : ℚ))).step).k).map (fun x => "C" ++ toString (x + 1))).getD i ""
        = "C" ++ toString (i + 1)) ∧
    (Widget.send_dataW (some ((Kmeans.new [((0 : ℚ), (0 : ℚ))] ((0 : ℚ), (0 : ℚ))).step))).2
        = some ((Kmeans.new [((0 : ℚ), (0 : ℚ))] ((0 : ℚ), (0 : ℚ))).step).centroids :=
  (send_data_characterized
      (some ((Kmeans.new [((0 : ℚ), (0 : ℚ))] ((0 : ℚ), (0 : ℚ))).step))).2
    ((Kmeans.new [((0 : ℚ), (0 : ℚ))] ((0 : ℚ), (0 : ℚ))).step) [0] rfl rfl

theorem addN_k (km : Kmeans) (rnd : ℕ → Point) (n : ℕ) :
    (km.addN rnd n).k = km.k + n := by
  induction n with
  | zero => rfl
  | succ m ih =>
    have : km.addN rnd (m + 1) = (km.addN rnd m).add_centroids (rnd m) := rfl
    rw [this]
    simp [Kmeans.add_centroids, Kmeans.k] at ih ⊢
    omega

theorem delete_centroids_k (km : Kmeans) :
    km.delete_centroids.k = if 1 < km.k then km.k - 1 else km.k := by
  by_cases h : 1 < km.centroids.length
  · simp [Kmeans.delete_centroids, Kmeans.k, h, List.length_dropLast]
  · simp [Kmeans.delete_centroids, Kmeans.k, h]

theorem delN_k_of_lt (n : ℕ) (km : Kmeans) (h : n < km.k) :
    (km.delN n).k = km.k - n := by
  induction n with
  | zero => simp [Kmeans.delN]
  | succ m ih =>
    have hm : m < km.k := Nat.lt_of_succ_lt h
    have : km.delN (m + 1) = (km.delN m).delete_centroids := rfl
    rw [this, delete_centroids_k, ih hm]
    have h2 : 1 < km.k - m := by omega
    rw [if_pos h2]
    omega

theorem adjustK_k (km : Kmeans) (n : ℕ) (rnd : ℕ → Point) (h : 1 ≤ n) :
    (Widget.adjustK km n rnd).k = n := by
  by_cases hlt : km.k < n
  · simp only [Widget.adjustK, if_pos hlt]
    rw [addN_k]
    omega
  · simp only [Widget.adjustK, if_neg hlt]
    have hle : n ≤ km.k := Nat.le_of_not_lt hlt
    have : km.k - n < km.k := by omega
    rw [delN_k_of_lt _ _ this]
    omega

theorem delN_k_max (km : Kmeans) (m : ℕ) (h : 1 ≤ km.k) :
    (km.delN m).k = max (km.k - m) 1 := by
  induction m with
  | zero =>
    have h0 : km.delN 0 = km := rfl
    rw [h0]
    omega
  | succ j ih =>
    have hstep : km.delN (j + 1) = (km.delN j).delete_centroids := rfl
    rw [hstep, delete_centroids_k, ih]
    by_cases hg : 1 < max (km.k - j) 1
    · rw [if_pos hg]; omega
    · rw [if_neg hg]; omega

/-- Counterexample to C9 as frozen.  `numberOfClusters` is declared with
default 0 (`settings.Setting(0)`, source line 117), and `restart` (source line
248) invokes `number_of_clusters_changed` with that value before any spinner
interaction.  The adjustment branch then runs the delete loop, whose K≥1
guard stops at one centroid, so the operation completes with `k_means.k = 1`
while `numberOfClusters = 0`: the two are not equal after the operation
completes, refuting the claimed synchronisation at this reachable state. -/
theorem spinner_model_sync_counterexample :
    (initW.restartW [((0 : ℚ), (0 : ℚ))] ((0 : ℚ), (0 : ℚ))
        (fun _ => ((0 : ℚ), (0 : ℚ)))).numberOfClusters = 0 ∧
    (initW.restartW [((0 : ℚ), (0 : ℚ))] ((0 : ℚ), (0 : ℚ))
        (fun _ => ((0 : ℚ), (0 : ℚ)))).kmeans
      = some (Kmeans.new [((0 : ℚ), (0 : ℚ))] ((0 : ℚ), (0 : ℚ))) ∧
    (Kmeans.new [((0 : ℚ), (0 : ℚ))] ((0 : ℚ), (0 : ℚ))).k = 1 ∧
    ¬ ∃ km', (initW.restartW [((0 : ℚ), (0 : ℚ))] ((0 : ℚ), (0 : ℚ))
        (fun _ => ((0 : ℚ), (0 : ℚ)))).kmeans = some km' ∧
      km'.k = (initW.restartW [((0 : ℚ), (0 : ℚ))] ((0 : ℚ), (0 : ℚ))
        (fun _ => ((0 : ℚ), (0 : ℚ)))).numberOfClusters := by
  refine ⟨rfl, rfl, rfl, ?_⟩
  rintro ⟨km', hk, hkk⟩
  have h1 : some (Kmeans.new [((0 : ℚ), (0 : ℚ))] ((0 : ℚ), (0 : ℚ))) = some km' := by
    rw [← hk]
    rfl
  have h2 : km' = Kmeans.new [((0 : ℚ), (0 : ℚ))] ((0 : ℚ), (0 : ℚ)) :=
    (Option.some.inj h1).symm
  subst h2
  exact absurd hkk (by decide)

/-- C9, amended.  The spinner setting and the model's centroid count stay in
sync on every spinner-deliverable value: a `graph_clicked` that passes its
gate increments both `k_means.k` and `numberOfClusters` by exactly 1 (so
equality of the two is preserved), and `number_of_clusters_changed`, when it
runs its adjustment branch on a count of at least 1 (every value the spinner
control can deliver) not exceeding the data size, adds or deletes centroids
until `k_means.k` equals `numberOfClusters`, which it leaves unchanged.  At
the declared default `numberOfClusters = 0` — with which `restart` invokes
the handler on data load, before any spinner interaction — the delete loop's
K≥1 guard stops at one centroid, so the adjustment branch completes with
`k_means.k = 1 ≠ 0 = numberOfClusters` (see the counterexample). -/
theorem spinner_model_sync (w : Widget) (x y : ℚ) (rnd : ℕ → Point) :
    (∀ km, w.kmeans = some km → km.stepCompleted = true →
      ∃ km', (w.graph_clickedW x y).kmeans = some km' ∧
        km'.k = km.k + 1 ∧
        (w.graph_clickedW x y).numberOfClusters = w.numberOfClusters + 1 ∧
        (w.numberOfClusters = km.k →
          (w.graph_clickedW x y).numberOfClusters = km'.k)) ∧
    (∀ km, w.kmeans = some km → 1 ≤ w.numberOfClusters →
      w.numberOfClusters ≤ w.dataLen →
      ∃ km', (Widget.number_of_clusters_changed w rnd).kmeans = some km' ∧
        km'.k = w.numberOfClusters ∧
        (Widget.number_of_clusters_changed w rnd).numberOfClusters
          = w.numberOfClusters) ∧
    (∀ km, w.kmeans = some km → w.numberOfClusters = 0 → 1 ≤ km.k →
      ∃ km', (Widget.number_of_clusters_changed w rnd).kmeans = some km' ∧
        km'.k = 1 ∧
        (Widget.number_of_clusters_changed w rnd).numberOfClusters = 0) := by
  refine ⟨?_, ?_, ?_⟩
  · intro km hk hs
    refine ⟨km.add_centroids (x, y), ?_, ?_, ?_, ?_⟩
    · simp [Widget.graph_clickedW, hk, hs]
    · simp [Kmeans.add_centroids, Kmeans.k]
    · simp [Widget.graph_clickedW, hk, hs]
    · intro he
      simp [Widget.graph_clickedW, hk, hs, he, Kmeans.add_centroids, Kmeans.k]
  · intro km hk h1 h2
    have hno : ¬ w.dataLen < w.numberOfClusters := Nat.not_lt.mpr h2
    refine ⟨Widget.adjustK km w.numberOfClusters rnd, ?_, adjustK_k km _ rnd h1, ?_⟩
    · simp [Widget.number_of_clusters_changed, hno, hk]
    · simp [Widget.number_of_clusters_changed, hno, hk]
  · intro km hk hzero hge
    have hno : ¬ w.dataLen < w.numberOfClusters := by
      rw [hzero]
      omega
    refine ⟨Widget.adjustK km w.numberOfClusters rnd, ?_, ?_, ?_⟩
    · simp [Widget.number_of_clusters_changed, hno, hk]
    · rw [hzero]
      simp only [Widget.adjustK]
      rw [if_neg (by omega), Nat.sub_zero, delN_k_max km km.k hge]
      omega
    · simp [Widget.number_of_clusters_changed, hno, hk, hzero]

/-- Witness for the amended C9 on concrete widgets: a click in the
post-update phase takes both counters from 1 to 2; a spinner change to 2 on a
three-point dataset resizes the model to 2 centroids; and the adjustment
branch at the default value 0 completes with one centroid and the setting
still 0. -/
theorem spinner_model_sync_witness :
    (∃ km', ((Widget.mk (some (Kmeans.new
          [((0 : ℚ), (0 : ℚ)), ((1 : ℚ), (0 : ℚ)), ((2 : ℚ), (0 : ℚ))]
          ((0 : ℚ), (0 : ℚ)))) 1 3 false false false true true
          false).graph_clickedW 5 6).kmeans = some km' ∧
      km'.k = (Kmeans.new [((0 : ℚ), (0 : ℚ)), ((1 : ℚ), (0 : ℚ)), ((2 : ℚ), (0 : ℚ))]
          ((0 : ℚ), (0 : ℚ))).k + 1 ∧
      ((Widget.mk (some (Kmeans.new
          [((0 : ℚ), (0 : ℚ)), ((1 : ℚ), (0 : ℚ)), ((2 : ℚ), (0 : ℚ))]
          ((0 : ℚ), (0 : ℚ)))) 1 3 false false false true true
          false).graph_clickedW 5 6).numberOfClusters = 1 + 1 ∧
      (1 = (Kmeans.new [((0 : ℚ), (0 : ℚ)), ((1 : ℚ), (0 : ℚ)), ((2 : ℚ), (0 : ℚ))]
          ((0 : ℚ), (0 : ℚ))).k →
        ((Widget.mk (some (Kmeans.new
            [((0 : ℚ), (0 : ℚ)), ((1 : ℚ), (0 : ℚ)), ((2 : ℚ), (0 : ℚ))]
            ((0 : ℚ), (0 : ℚ)))) 1 3 false false false true true
            false).graph_clickedW 5 6).numberOfClusters = km'.k)) ∧
    (∃ km', (Widget.number_of_clusters_changed
        (Widget.mk (some (Kmeans.new
          [((0 : ℚ), (0 : ℚ)), ((1 : ℚ), (0 : ℚ)), ((2 : ℚ), (0 : ℚ))]
          ((0 : ℚ), (0 : ℚ)))) 2 3 false false false true true false)
        (fun _ => ((9 : ℚ), (9 : ℚ)))).kmeans = some km' ∧
      km'.k = 2 ∧
      (Widget.number_of_clusters_changed
        (Widget.mk (some (Kmeans.new
          [((0 : ℚ), (0 : ℚ)), ((1 : ℚ), (0 : ℚ)), ((2 : ℚ), (0 : ℚ))]
          ((0 : ℚ), (0 : ℚ)))) 2 3 false false false true true false)
        (fun _ => ((9 : ℚ), (9 : ℚ)))).numberOfClusters = 2) ∧
    (∃ km', (Widget.number_of_clusters_changed
        (Widget.mk (some (Kmeans.new [((0 : ℚ), (0 : ℚ))] ((0 : ℚ), (0 : ℚ)))) 0 1
          false false true true false false)
        (fun _ => ((9 : ℚ), (9 : ℚ)))).kmeans = some km' ∧
      km'.k = 1 ∧
      (Widget.number_of_clusters_changed
        (Widget.mk (some (Kmeans.new [((0 : ℚ), (0 : ℚ))] ((0 : ℚ), (0 : ℚ)))) 0 1
          false false true true false false)
        (fun _ => ((9 : ℚ), (9 : ℚ)))).numberOfClusters = 0) :=
  ⟨(spinner_model_sync
      (Widget.mk (some (Kmeans.new
        [((0 : ℚ), (0 : ℚ)), ((1 : ℚ), (0 : ℚ)), ((2 : ℚ), (0 : ℚ))]
        ((0 : ℚ), (0 : ℚ)))) 1 3 false false false true true false) 5 6
      (fun _ => ((9 : ℚ), (9 : ℚ)))).1
    (Kmeans.new [((0 : ℚ), (0 : ℚ)), ((1 : ℚ), (0 : ℚ)), ((2 : ℚ), (0 : ℚ))]
      ((0 : ℚ), (0 : ℚ))) rfl rfl,
   (spinner_model_sync
      (Widget.mk (some (Kmeans.new
        [((0 : ℚ), (0 : ℚ)), ((1 : ℚ), (0 : ℚ)), ((2 : ℚ), (0 : ℚ))]
        ((0 : ℚ), (0 : ℚ)))) 2 3 false false false true true false) 5 6
      (fun _ => ((9 : ℚ), (9 : ℚ)))).2.1
    (Kmeans.new [((0 : ℚ), (0 : ℚ)), ((1 : ℚ), (0 : ℚ)), ((2 : ℚ), (0 : ℚ))]
      ((0 : ℚ), (0 : ℚ))) rfl (by decide) (by decide),
   (spinner_model_sync
      (Widget.mk (some (Kmeans.new [((0 : ℚ), (0 : ℚ))] ((0 : ℚ), (0 : ℚ)))) 0 1
        false false true true false false) 5 6
      (fun _ => ((9 : ℚ), (9 : ℚ)))).2.2
    (Kmeans.new [((0 : ℚ), (0 : ℚ))] ((0 : ℚ), (0 : ℚ))) rfl rfl (by decide)⟩

/-- The K-invariant: the engine has at least one centroid, and so does every
snapshot on its history (so a step-back can never restore an empty set). -/
def KInv (km : Kmeans) : Prop :=
  1 ≤ km.centroids.length ∧ ∀ s ∈ km.history, 1 ≤ s.centroids.length

theorem updateCentroids_length (dt : List Point) (cl : List ℕ) (cs : List Point) :
    (Kmeans.updateCentroids dt cl cs).length = cs.length := by
  simp [Kmeans.updateCentroids]

theorem KInv_new (dt : List Point) (c0 : Point) : KInv (Kmeans.new dt c0) := by
  constructor
  · simp [Kmeans.new]
  · intro s hs
    simp [Kmeans.new] at hs

theorem KInv_step (km : Kmeans) (h : KInv km) : KInv km.step := by
  obtain ⟨h1, h2⟩ := h
  by_cases hs : km.stepCompleted
  · refine ⟨by simpa [Kmeans.step, hs] using h1, ?_⟩
    intro s hmem
    simp only [Kmeans.step, hs, if_pos] at hmem
    rcases List.mem_cons.mp hmem with heq | hmem'
    · subst heq; simpa [Kmeans.snap] using h1
    · exact h2 s hmem'
  · refine ⟨?_, ?_⟩
    · simp only [Kmeans.step, hs, if_neg, Bool.false_eq_true, not_false_eq_true]
      simpa [updateCentroids_length] using h1
    · intro s hmem
      simp only [Kmeans.step, hs, if_neg, Bool.false_eq_true, not_false_eq_true] at hmem
      rcases List.mem_cons.mp hmem with heq | hmem'
      · subst heq; simpa [Kmeans.snap] using h1
      · exact h2 s hmem'

theorem KInv_stepBack (km : Kmeans) (h : KInv km) : KInv km.stepBack := by
  obtain ⟨h1, h2⟩ := h
  match hh : km.history with
  | [] =>
    constructor
    · simpa [Kmeans.stepBack, hh] using h1
    · intro s hmem
      simp [Kmeans.stepBack, hh] at hmem
  | s0 :: rest =>
    constructor
    · have := h2 s0 (by rw [hh]; exact List.mem_cons_self _ _)
      simpa [Kmeans.stepBack, hh] using this
    · intro s hmem
      simp only [Kmeans.stepBack, hh] at hmem
      exact h2 s (by rw [hh]; exact List.mem_cons_of_mem _ hmem)

theorem KInv_add_centroids (km : Kmeans) (p : Point) (h : KInv km) :
    KInv (km.add_centroids p) := by
  obtain ⟨h1, h2⟩ := h
  refine ⟨?_, ?_⟩
  · simp [Kmeans.add_centroids]
  · intro s hmem
    exact h2 s (by simpa [Kmeans.add_centroids] using hmem)

theorem KInv_delete_centroids (km : Kmeans) (h : KInv km) :
    KInv km.delete_centroids := by
  obtain ⟨h1, h2⟩ := h
  by_cases hg : 1 < km.centroids.length
  · refine ⟨?_, ?_⟩
    · simp [Kmeans.delete_centroids, hg, List.length_dropLast]
      omega
    · intro s hmem
      exact h2 s (by simpa [Kmeans.delete_centroids, hg] using hmem)
  · exact ⟨by simpa [Kmeans.delete_centroids, hg] using h1,
      fun s hmem => h2 s (by simpa [Kmeans.delete_centroids, hg] using hmem)⟩

theorem KInv_move_centroid (km : Kmeans) (i : ℕ) (x y : ℚ) (h : KInv km) :
    KInv (km.move_centroid i x y) := by
  obtain ⟨h1, h2⟩ := h
  refine ⟨by simpa [Kmeans.move_centroid] using h1, ?_⟩
  intro s hmem
  exact h2 s (by simpa [Kmeans.move_centroid] using hmem)

theorem KInv_addN (km : Kmeans) (rnd : ℕ → Point) (n : ℕ) (h : KInv km) :
    KInv (km.addN rnd n) := by
  induction n with
  | zero => exact h
  | succ m ih => exact KInv_add_centroids _ _ ih

theorem KInv_delN (km : Kmeans) (n : ℕ) (h : KInv km) : KInv (km.delN n) := by
  induction n with
  | zero => exact h
  | succ m ih => exact KInv_delete_centroids _ ih

theorem KInv_adjustK (km : Kmeans) (n : ℕ) (rnd : ℕ → Point) (h : KInv km) :
    KInv (Widget.adjustK km n rnd) := by
  by_cases hlt : km.k < n
  · simpa [Widget.adjustK, hlt] using KInv_addN km rnd (n - km.k) h
  · simpa [Widget.adjustK, hlt] using KInv_delN km (km.k - n) h

/-- The widget-level K-invariant: whenever a model is installed, `KInv` holds
of it. -/
def WInv (w : Widget) : Prop := ∀ km, w.kmeans = some km → KInv km

theorem WInv_replotW (w : Widget) (h : WInv w) : WInv w.replotW := by
  intro km hk
  exact h km (by rwa [replotW_kmeans] at hk)

theorem WInv_number_of_clusters_changed (w : Widget) (rnd : ℕ → Point) (h : WInv w) :
    WInv (Widget.number_of_clusters_changed w rnd) := by
  intro km hk
  by_cases hb : w.dataLen < w.numberOfClusters
  · simp only [Widget.number_of_clusters_changed, if_pos hb] at hk
    exact h km hk
  · simp only [Widget.number_of_clusters_changed, if_neg hb] at hk
    match hw : w.kmeans with
    | none =>
      rw [hw] at hk
      simp at hk
    | some km0 =>
      rw [hw] at hk
      rw [replotW_kmeans] at hk
      simp at hk
      subst hk
      exact KInv_adjustK km0 _ rnd (h km0 hw)

theorem WInv_restartW (w : Widget) (pts : List Point) (c0 : Point) (rnd : ℕ → Point)
    (_h : WInv w) : WInv (w.restartW pts c0 rnd) := by
  intro km hk
  simp only [Widget.restartW] at hk
  rw [replotW_kmeans] at hk
  have hinner : WInv { w with kmeans := some (Kmeans.new pts c0), dataLen := pts.length } := by
    intro km1 hk1
    simp at hk1
    subst hk1
    exact KInv_new pts c0
  exact WInv_number_of_clusters_changed _ rnd hinner km hk

theorem WInv_stepW (w : Widget) (h : WInv w) : WInv w.stepW := by
  intro km hk
  match hw : w.kmeans with
  | none =>
    simp only [Widget.stepW, hw] at hk
    exact Option.noConfusion hk
  | some km0 =>
    simp only [Widget.stepW, hw] at hk
    by_cases ha : (Widget.replotW { w with kmeans := some km0.step }).autoPlay <;>
      simp [ha, replotW_kmeans] at hk <;>
      exact hk ▸ KInv_step km0 (h km0 hw)

theorem WInv_step_backW (w : Widget) (h : WInv w) : WInv w.step_backW := by
  intro km hk
  match hw : w.kmeans with
  | none =>
    simp only [Widget.step_backW, hw] at hk
    exact Option.noConfusion hk
  | some km0 =>
    simp only [Widget.step_backW, hw] at hk
    by_cases hn : km0.stepBack.stepNo ≤ 0 <;>
      simp [hn, replotW_kmeans] at hk <;>
      exact hk ▸ KInv_stepBack km0 (h km0 hw)

theorem WInv_graph_clickedW (w : Widget) (x y : ℚ) (h : WInv w) :
    WInv (w.graph_clickedW x y) := by
  intro km hk
  match hw : w.kmeans with
  | none =>
    simp only [Widget.graph_clickedW, hw] at hk
    exact Option.noConfusion hk
  | some km0 =>
    simp only [Widget.graph_clickedW, hw] at hk
    by_cases hs : km0.stepCompleted
    · simp [hs, replotW_kmeans] at hk
      exact hk ▸ KInv_add_centroids km0 (x, y) (h km0 hw)
    · simp [hs] at hk
      exact h km hk

theorem WInv_centroid_droppedW (w : Widget) (i : ℕ) (x y : ℚ) (h : WInv w) :
    WInv (w.centroid_droppedW i x y) := by
  intro km hk
  match hw : w.kmeans with
  | none =>
    simp only [Widget.centroid_droppedW, hw] at hk
    exact Option.noConfusion hk
  | some km0 =>
    simp only [Widget.centroid_droppedW, hw] at hk
    rw [replotW_kmeans] at hk
    simp at hk
    exact hk ▸ KInv_move_centroid km0 i x y (h km0 hw)

theorem WInv_of_WStep {w w' : Widget} {l : WLabel} (hs : WStep w l w') (h : WInv w) :
    WInv w' := by
  cases hs with
  | restart pts c0 rnd => exact WInv_restartW w pts c0 rnd h
  | spinner n rnd h1 h2 h3 =>
    refine WInv_number_of_clusters_changed _ rnd ?_
    intro km hk
    exact h km hk
  | click x y => exact WInv_graph_clickedW w x y h
  | stepF hc => exact WInv_stepW w h
  | stepB h1 h2 => exact WInv_step_backW w h
  | drop i x y hd => exact WInv_centroid_droppedW w i x y h

theorem WInv_of_Reachable {w : Widget} (h : Reachable w) : WInv w := by
  induction h with
  | init => intro km hk; simp [initW] at hk
  | next _ hs ih => exact WInv_of_WStep hs ih

/-- C3.  The number of centroids never drops below 1: in every widget state
reachable from the fresh widget through restarts, spinner changes, chart
clicks, steps and step-backs, any installed clustering model has at least one
centroid (deletions that would empty it are rejected as no-ops, and every
history snapshot a step-back can restore also carries at least one
centroid). -/
theorem k_at_least_one (w : Widget) (h : Reachable w) :
    ∀ km, w.kmeans = some km → 1 ≤ km.k :=
  fun km hk => (WInv_of_Reachable h km hk).1

/-- Witness for C3: the widget state reached by a single restart on a
one-point dataset carries a model with exactly one centroid. -/
theorem k_at_least_one_witness :
    1 ≤ (Kmeans.new [((0 : ℚ), (0 : ℚ))] ((0 : ℚ), (0 : ℚ))).k :=
  k_at_least_one
    (initW.restartW [((0 : ℚ), (0 : ℚ))] ((0 : ℚ), (0 : ℚ)) (fun _ => ((0 : ℚ), (0 : ℚ))))
    (Reachable.next Reachable.init
      (WStep.restart initW [((0 : ℚ), (0 : ℚ))] ((0 : ℚ), (0 : ℚ))
        (fun _ => ((0 : ℚ), (0 : ℚ)))))
    (Kmeans.new [((0 : ℚ), (0 : ℚ))] ((0 : ℚ), (0 : ℚ))) rfl

/-- The drag-gate invariant: the chart's centroid series is draggable only
when a model is installed and in the post-update phase (`step_completed`
true), because `replot` — run after every state change — sets the drag flags
from `step_completed`. -/
def DInv (w : Widget) : Prop :=
  w.draggable = true → ∃ km, w.kmeans = some km ∧ km.stepCompleted = true

theorem adjustK_stepCompleted (km : Kmeans) (n : ℕ) (rnd : ℕ → Point) :
    (Widget.adjustK km n rnd).stepCompleted = km.stepCompleted := by
  have haddN : ∀ m, (km.addN rnd m).stepCompleted = km.stepCompleted := by
    intro m
    induction m with
    | zero => rfl
    | succ j ih =>
      have : km.addN rnd (j + 1) = (km.addN rnd j).add_centroids (rnd j) := rfl
      rw [this]
      simpa [Kmeans.add_centroids] using ih
  have hdelN : ∀ m, (km.delN m).stepCompleted = km.stepCompleted := by
    intro m
    induction m with
    | zero => rfl
    | succ j ih =>
      have : km.delN (j + 1) = (km.delN j).delete_centroids := rfl
      rw [this]
      by_cases hg : 1 < (km.delN j).centroids.length
      · simpa [Kmeans.delete_centroids, hg] using ih
      · simpa [Kmeans.delete_centroids, hg] using ih
  by_cases hlt : km.k < n
  · simpa [Widget.adjustK, hlt] using haddN (n - km.k)
  · simpa [Widget.adjustK, hlt] using hdelN (km.k - n)

theorem DInv_replotW_some (w : Widget) (km : Kmeans) (h : w.kmeans = some km) :
    DInv w.replotW := by
  intro hd
  rw [replotW_kmeans]
  refine ⟨km, h, ?_⟩
  simp [Widget.replotW, h] at hd
  exact hd

theorem noc_kmeans_some (w : Widget) (rnd : ℕ → Point) (km : Kmeans)
    (h : w.kmeans = some km) :
    ∃ km', (Widget.number_of_clusters_changed w rnd).kmeans = some km' ∧
      km'.stepCompleted = km.stepCompleted := by
  by_cases hb : w.dataLen < w.numberOfClusters
  · refine ⟨km, ?_, rfl⟩
    simp only [Widget.number_of_clusters_changed, if_pos hb]
    exact h
  · refine ⟨Widget.adjustK km w.numberOfClusters rnd, ?_, adjustK_stepCompleted _ _ _⟩
    simp [Widget.number_of_clusters_changed, if_neg hb, h]

theorem DInv_number_of_clusters_changed (w : Widget) (rnd : ℕ → Point) (h : DInv w) :
    DInv (Widget.number_of_clusters_changed w rnd) := by
  by_cases hb : w.dataLen < w.numberOfClusters
  · intro hd
    simp only [Widget.number_of_clusters_changed, if_pos hb] at hd ⊢
    exact h hd
  · match hw : w.kmeans with
    | none =>
      intro hd
      simp only [Widget.number_of_clusters_changed, if_neg hb, hw] at hd
      rcases h hd with ⟨km, hkm, _⟩
      rw [hw] at hkm
      exact Option.noConfusion hkm
    | some km0 =>
      intro hd
      simp only [Widget.number_of_clusters_changed, if_neg hb, hw] at hd ⊢
      exact DInv_replotW_some _ _ rfl hd

theorem DInv_restartW (w : Widget) (pts : List Point) (c0 : Point) (rnd : ℕ → Point) :
    DInv (w.restartW pts c0 rnd) := by
  intro _hd
  obtain ⟨km', hk', hsc⟩ := noc_kmeans_some
    { w with kmeans := some (Kmeans.new pts c0), dataLen := pts.length } rnd
    (Kmeans.new pts c0) rfl
  refine ⟨km', ?_, ?_⟩
  · simp only [Widget.restartW]
    rw [replotW_kmeans]
    exact hk'
  · rw [hsc]
    rfl

theorem DInv_stepW (w : Widget) (h : DInv w) : DInv w.stepW := by
  match hw : w.kmeans with
  | none =>
    intro hd
    simp only [Widget.stepW, hw] at hd ⊢
    rcases h hd with ⟨km, hkm, _⟩
    rw [hw] at hkm
    exact Option.noConfusion hkm
  | some km0 =>
    intro hd
    simp only [Widget.stepW, hw] at hd ⊢
    by_cases ha : (Widget.replotW { w with kmeans := some km0.step }).autoPlay
    · rw [if_pos ha] at hd ⊢
      exact DInv_replotW_some _ km0.step rfl hd
    · rw [if_neg ha] at hd ⊢
      exact DInv_replotW_some _ km0.step rfl hd

theorem DInv_step_backW (w : Widget) (h : DInv w) : DInv w.step_backW := by
  match hw : w.kmeans with
  | none =>
    intro hd
    simp only [Widget.step_backW, hw] at hd ⊢
    rcases h hd with ⟨km, hkm, _⟩
    rw [hw] at hkm
    exact Option.noConfusion hkm
  | some km0 =>
    intro hd
    simp only [Widget.step_backW, hw] at hd ⊢
    by_cases hn : km0.stepBack.stepNo ≤ 0
    · rw [if_pos hn] at hd ⊢
      exact DInv_replotW_some _ km0.stepBack rfl hd
    · rw [if_neg hn] at hd ⊢
      exact DInv_replotW_some _ km0.stepBack rfl hd

theorem DInv_graph_clickedW (w : Widget) (x y : ℚ) (h : DInv w) :
    DInv (w.graph_clickedW x y) := by
  match hw : w.kmeans with
  | none =>
    intro hd
    simp only [Widget.graph_clickedW, hw] at hd ⊢
    rcases h hd with ⟨km, hkm, _⟩
    rw [hw] at hkm
    exact Option.noConfusion hkm
  | some km0 =>
    by_cases hs : km0.stepCompleted = true
    · intro hd
      simp only [Widget.graph_clickedW, hw, hs, if_true] at hd ⊢
      exact DInv_replotW_some _ (km0.add_centroids (x, y)) rfl hd
    · intro hd
      simp only [Widget.graph_clickedW, hw, if_neg hs] at hd ⊢
      rcases h hd with ⟨km, hkm, hksc⟩
      rw [hw] at hkm
      exact ⟨km, hkm, hksc⟩

theorem DInv_centroid_droppedW (w : Widget) (i : ℕ) (x y : ℚ) (h : DInv w) :
    DInv (w.centroid_droppedW i x y) := by
  match hw : w.kmeans with
  | none =>
    intro hd
    simp only [Widget.centroid_droppedW, hw] at hd ⊢
    rcases h hd with ⟨km, hkm, _⟩
    rw [hw] at hkm
    exact Option.noConfusion hkm
  | some km0 =>
    intro hd
    simp only [Widget.centroid_droppedW, hw] at hd ⊢
    exact DInv_replotW_some _ (km0.move_centroid i x y) rfl hd

theorem DInv_of_WStep {w w' : Widget} {l : WLabel} (hs : WStep w l w') (h : DInv w) :
    DInv w' := by
  cases hs with
  | restart pts c0 rnd => exact DInv_restartW w pts c0 rnd
  | spinner n rnd h1 h2 h3 =>
    refine DInv_number_of_clusters_changed _ rnd ?_
    intro hd
    exact h hd
  | click x y => exact DInv_graph_clickedW w x y h
  | stepF hc => exact DInv_stepW w h
  | stepB h1 h2 => exact DInv_step_backW w h
  | drop i x y hd => exact DInv_centroid_droppedW w i x y h

theorem DInv_of_Reachable {w : Widget} (h : Reachable w) : DInv w := by
  induction h with
  | init => intro hd; simp [initW] at hd
  | next _ hs ih => exact DInv_of_WStep hs ih

/-- C7.  Moving a centroid is gated to the post-update phase: a centroid-drop
event can only be delivered from a chart whose centroids were rendered
draggable, and in every reachable widget state that requires an installed
model with `step_completed` true — so while `step_completed` is false no drop
event exists and the centroid positions cannot change. -/
theorem drop_requires_step_completed (w w' : Widget) (i : ℕ) (x y : ℚ)
    (h : Reachable w) (hs : WStep w (WLabel.dropL i x y) w') :
    ∃ km, w.kmeans = some km ∧ km.stepCompleted = true := by
  cases hs with
  | drop i x y hd => exact DInv_of_Reachable h hd

/-- Witness for C7: the state reached by one restart is reachable, renders
its centroid draggable, and indeed holds a model with `step_completed`
true. -/
theorem drop_requires_step_completed_witness :
    ∃ km, (initW.restartW [((0 : ℚ), (0 : ℚ))] ((0 : ℚ), (0 : ℚ))
        (fun _ => ((0 : ℚ), (0 : ℚ)))).kmeans = some km ∧ km.stepCompleted = true :=
  drop_requires_step_completed
    (initW.restartW [((0 : ℚ), (0 : ℚ))] ((0 : ℚ), (0 : ℚ)) (fun _ => ((0 : ℚ), (0 : ℚ))))
    ((initW.restartW [((0 : ℚ), (0 : ℚ))] ((0 : ℚ), (0 : ℚ))
        (fun _ => ((0 : ℚ), (0 : ℚ)))).centroid_droppedW 0 0 0) 0 0 0
    (Reachable.next Reachable.init
      (WStep.restart initW [((0 : ℚ), (0 : ℚ))] ((0 : ℚ), (0 : ℚ))
        (fun _ => ((0 : ℚ), (0 : ℚ)))))
    (WStep.drop _ 0 0 0 rfl)
